import Mathlib

/-!
Shallow embedding of the tenant data service
(`src/data/service/TenantDataService.go`).

The service is a data-access layer over two storage tables, `tenant`
(primary key `tenant_id`, column `secret_key`) and `application`
(composite primary key `tenant_id, application_id`, column `name`).
Each operation opens a session, optionally pre-checks that a referenced
row exists via a point lookup, and then issues a single parameterized
statement.  The storage engine itself is out of scope: an INSERT is an
upsert on the primary key, a SELECT by full key returns the matching
rows, and a DELETE by full key removes them; the tables are modelled as
association lists with exactly those three primitives.  The outcomes of
the fallible collaborators (session creation, identifier generation and
statement execution) are supplied explicitly through an `Env` record.
-/

namespace TenantService

/-- Go style error value carried back to the caller.  The data service
creates `notFound` errors itself (via string formatting) when a
referenced row is absent; every error that comes from a collaborator
(session creation, identifier generation, statement execution) is
propagated unchanged and carried here as `dependency`. -/
inductive GoError where
  | notFound (message : String)
  | dependency (message : String)
deriving DecidableEq

/-- The 128-bit identifier type of the core library (`system.UUID`, a
16-byte array in Go, so the length constraint is part of the type). -/
structure SystemUUID where
  bytes : List Nat
  size_eq : bytes.length = 16

/-- The 128-bit identifier type of the storage driver (`gocql.UUID`,
also a 16-byte array). -/
structure GocqlUUID where
  bytes : List Nat
  size_eq : bytes.length = 16

theorem systemUUID_eq_of_bytes_eq : ∀ {a b : SystemUUID}, a.bytes = b.bytes → a = b
  | ⟨_, _⟩, ⟨_, _⟩, rfl => rfl

theorem gocqlUUID_eq_of_bytes_eq : ∀ {a b : GocqlUUID}, a.bytes = b.bytes → a = b
  | ⟨_, _⟩, ⟨_, _⟩, rfl => rfl

instance : DecidableEq SystemUUID := fun a b =>
  if h : a.bytes = b.bytes then .isTrue (systemUUID_eq_of_bytes_eq h)
  else .isFalse (fun hab => h (congrArg SystemUUID.bytes hab))

instance : DecidableEq GocqlUUID := fun a b =>
  if h : a.bytes = b.bytes then .isTrue (gocqlUUID_eq_of_bytes_eq h)
  else .isFalse (fun hab => h (congrArg GocqlUUID.bytes hab))

/-- The all-zero identifier `system.EmptyUUID`. -/
def EmptyUUID : SystemUUID := ⟨List.replicate 16 0, by simp⟩

/-- Lower-case hex digit for a value below 16 (ASCII digits and letters). -/
def hexDigitChar (n : Nat) : Char :=
  if n < 10 then Char.ofNat (48 + n) else Char.ofNat (87 + n)

/-- Two-digit hex rendering of one byte. -/
def byteHex (b : Nat) : String :=
  String.mk [hexDigitChar (b / 16 % 16), hexDigitChar (b % 16)]

/-- Hex rendering of a byte sequence. -/
def bytesHex (bs : List Nat) : String :=
  String.join (bs.map byteHex)

/-- Canonical textual form of an identifier (`system.UUID.String()`),
in the usual 8-4-4-4-12 grouping. -/
def uuidString (u : SystemUUID) : String :=
  bytesHex (u.bytes.take 4) ++ "-" ++
  bytesHex ((u.bytes.drop 4).take 2) ++ "-" ++
  bytesHex ((u.bytes.drop 6).take 2) ++ "-" ++
  bytesHex ((u.bytes.drop 8).take 2) ++ "-" ++
  bytesHex (u.bytes.drop 10)

/-- Driver constructor `gocql.UUIDFromBytes`: fails unless the input is
exactly 16 bytes, in which case the bytes are copied verbatim; on
failure it returns the zero value together with the error. -/
def gocqlUUIDFromBytes (input : List Nat) : GocqlUUID × Option String :=
  if h : input.length = 16 then (⟨input, h⟩, none)
  else (⟨List.replicate 16 0, by simp⟩, some "UUIDs must be exactly 16 bytes long")

/-- Core constructor `system.UUIDFromBytes`, same contract. -/
def systemUUIDFromBytes (input : List Nat) : SystemUUID × Option String :=
  if h : input.length = 16 then (⟨input, h⟩, none)
  else (⟨List.replicate 16 0, by simp⟩, some "UUIDs must be exactly 16 bytes long")

/-- Source function `mapSystemUUIDToGocqlUUID`: converts through the raw
byte sequence, discarding the (impossible) length error. -/
def mapSystemUUIDToGocqlUUID (uuid : SystemUUID) : GocqlUUID :=
  (gocqlUUIDFromBytes uuid.bytes).1

/-- Source function `mapGocqlUUIDToSystemUUID`: the reverse conversion,
again through the raw byte sequence. -/
def mapGocqlUUIDToSystemUUID (uuid : GocqlUUID) : SystemUUID :=
  (systemUUIDFromBytes uuid.bytes).1

/-- Several read paths pass `tenantID.String()` as the query parameter
for a uuid-typed column.  Per the spec an identifier is a 128-bit value
convertible to and from its canonical textual form, so the engine
resolves that textual parameter to the same 16-byte column value; this
function is that denotation. -/
def stringParam (u : SystemUUID) : GocqlUUID := ⟨u.bytes, u.size_eq⟩

/-- Row shape of the upstream contract: a tenant carries a secret key. -/
structure Tenant where
  SecretKey : String
deriving DecidableEq

/-- Row shape of the upstream contract: an application carries a name. -/
structure Application where
  Name : String
deriving DecidableEq

/-- The two stored tables.  `tenant` rows are keyed by the tenant
identifier, `application` rows by the (tenant, application) pair; the
remaining column is the single string attribute of each table. -/
structure DB where
  tenant : List (GocqlUUID × String)
  application : List ((GocqlUUID × GocqlUUID) × String)
deriving DecidableEq

/-- Well-formedness guaranteed by the storage engine: a primary key
identifies at most one row in each table. -/
def DB.WF (db : DB) : Prop :=
  (db.tenant.map Prod.fst).Nodup ∧ (db.application.map Prod.fst).Nodup

/-- Outcomes of the fallible collaborators during one operation: the
session-creation error if any, the identifier produced by the generator
together with its error if any, and the error of the single mutating
statement the operation may execute.  `none` means the collaborator
succeeds. -/
structure Env where
  sessionErr : Option String
  genUUID : SystemUUID
  genErr : Option String
  execErr : Option String
deriving DecidableEq

/-- Rows a SELECT by full key returns: the attribute values of the rows
whose key equals the parameter, in table order. -/
def rowsFor {κ ν : Type} [DecidableEq κ] (k : κ) : List (κ × ν) → List ν
  | [] => []
  | r :: rest => if r.1 = k then r.2 :: rowsFor k rest else rowsFor k rest

/-- Effect of an INSERT on a primary-key table: overwrite the row with
the given key if present, append a fresh row otherwise. -/
def upsertRow {κ ν : Type} [DecidableEq κ] (k : κ) (v : ν) : List (κ × ν) → List (κ × ν)
  | [] => [(k, v)]
  | r :: rest => if r.1 = k then (k, v) :: rest else r :: upsertRow k v rest

/-- Effect of a DELETE by full key: remove every row with that key. -/
def deleteRows {κ ν : Type} [DecidableEq κ] (k : κ) : List (κ × ν) → List (κ × ν)
  | [] => []
  | r :: rest => if r.1 = k then deleteRows k rest else r :: deleteRows k rest

/-- Result of `iter.Scan(...)` on a fresh iterator: whether a first row
exists to be read. -/
def scanHasRow {ν : Type} : List ν → Bool
  | [] => false
  | _ :: _ => true

/-- Rows of the application table belonging to one tenant, as returned
by the SELECT on the partition key alone, in table order. -/
def applicationRowsOf (tk : GocqlUUID) :
    List ((GocqlUUID × GocqlUUID) × String) → List ((GocqlUUID × GocqlUUID) × String)
  | [] => []
  | r :: rest => if r.1.1 = tk then r :: applicationRowsOf tk rest else applicationRowsOf tk rest

/-- Message of the not-found error for a missing tenant row, exactly as
formatted by the source. -/
def tenantNotFoundMsg (tenantID : SystemUUID) : String :=
  "Tenant not found. Tenant ID: " ++ uuidString tenantID

/-- Message of the not-found error for a missing application row,
exactly as formatted by the source. -/
def applicationNotFoundMsg (tenantID applicationID : SystemUUID) : String :=
  "Tenant Application not found. Tenant ID: " ++ uuidString tenantID ++
    ", Application ID: " ++ uuidString applicationID

/-- Helper `addOrUpdateTenant`: one INSERT into the tenant table, keyed
by the converted identifier. -/
def addOrUpdateTenant (env : Env) (tenantID : SystemUUID) (tenant : Tenant) (db : DB) :
    Option GoError × DB :=
  match env.execErr with
  | some e => (some (.dependency e), db)
  | none =>
      let mappedTenantID := mapSystemUUIDToGocqlUUID tenantID
      (none, { db with tenant := upsertRow mappedTenantID tenant.SecretKey db.tenant })

/-- Helper `readTenant`: SELECT the secret key by tenant identifier
(passed in textual form) and scan the first row. -/
def readTenant (tenantID : SystemUUID) (db : DB) : Tenant × Option GoError :=
  match rowsFor (stringParam tenantID) db.tenant with
  | [] => (⟨""⟩, some (.notFound (tenantNotFoundMsg tenantID)))
  | secretKey :: _ => (⟨secretKey⟩, none)

/-- Helper `doesTenantExist`: SELECT the secret key by tenant identifier
and report whether a row was scanned. -/
def doesTenantExist (tenantID : SystemUUID) (db : DB) : Bool :=
  scanHasRow (rowsFor (stringParam tenantID) db.tenant)

/-- Helper `addOrUpdateApplication`: one INSERT into the application
table, keyed by the converted identifier pair. -/
def addOrUpdateApplication (env : Env) (tenantID applicationID : SystemUUID)
    (application : Application) (db : DB) : Option GoError × DB :=
  match env.execErr with
  | some e => (some (.dependency e), db)
  | none =>
      let mappedTenantID := mapSystemUUIDToGocqlUUID tenantID
      let mappedApplicationID := mapSystemUUIDToGocqlUUID applicationID
      let newRows := upsertRow (mappedTenantID, mappedApplicationID) application.Name db.application
      (none, { db with application := newRows })

/-- Helper `readApplication`: SELECT the name by the identifier pair and
scan the first row. -/
def readApplication (tenantID applicationID : SystemUUID) (db : DB) :
    Application × Option GoError :=
  match rowsFor (stringParam tenantID, stringParam applicationID) db.application with
  | [] => (⟨""⟩, some (.notFound (applicationNotFoundMsg tenantID applicationID)))
  | name :: _ => (⟨name⟩, none)

/-- Helper `doesApplicationExist`: SELECT the name by the identifier
pair and report whether a row was scanned. -/
def doesApplicationExist (tenantID applicationID : SystemUUID) (db : DB) : Bool :=
  scanHasRow (rowsFor (stringParam tenantID, stringParam applicationID) db.application)

/-- Helper `readAllApplications`: SELECT identifier and name of every
application row of the tenant, accumulating them into a Go map from the
converted application identifier to the application record. -/
def readAllApplications (tenantID : SystemUUID) (db : DB) : List (SystemUUID × Application) :=
  (applicationRowsOf (stringParam tenantID) db.application).foldl
    (fun applications r => upsertRow (mapGocqlUUIDToSystemUUID r.1.2) ⟨r.2⟩ applications) []

/-- Operation `CreateTenant`: generate an identifier, open a session and
insert the row, returning the identifier together with any error. -/
def CreateTenant (env : Env) (tenant : Tenant) (db : DB) :
    (SystemUUID × Option GoError) × DB :=
  match env.genErr with
  | some e => ((EmptyUUID, some (.dependency e)), db)
  | none =>
      match env.sessionErr with
      | some e => ((EmptyUUID, some (.dependency e)), db)
      | none =>
          let r := addOrUpdateTenant env env.genUUID tenant db
          ((env.genUUID, r.1), r.2)

/-- Operation `UpdateTenant`: open a session, fail with the not-found
error if the tenant row is absent, otherwise insert (overwrite). -/
def UpdateTenant (env : Env) (tenantID : SystemUUID) (tenant : Tenant) (db : DB) :
    Option GoError × DB :=
  match env.sessionErr with
  | some e => (some (.dependency e), db)
  | none =>
      if !doesTenantExist tenantID db then
        (some (.notFound (tenantNotFoundMsg tenantID)), db)
      else
        addOrUpdateTenant env tenantID tenant db

/-- Operation `ReadTenant`: open a session and read the row. -/
def ReadTenant (env : Env) (tenantID : SystemUUID) (db : DB) : Tenant × Option GoError :=
  match env.sessionErr with
  | some e => (⟨""⟩, some (.dependency e))
  | none => readTenant tenantID db

/-- Operation `DeleteTenant`: open a session, fail with the not-found
error if the tenant row is absent, otherwise DELETE from the tenant
table only. -/
def DeleteTenant (env : Env) (tenantID : SystemUUID) (db : DB) : Option GoError × DB :=
  match env.sessionErr with
  | some e => (some (.dependency e), db)
  | none =>
      if !doesTenantExist tenantID db then
        (some (.notFound (tenantNotFoundMsg tenantID)), db)
      else
        match env.execErr with
        | some e => (some (.dependency e), db)
        | none =>
            let mappedTenantID := mapSystemUUIDToGocqlUUID tenantID
            (none, { db with tenant := deleteRows mappedTenantID db.tenant })

/-- Operation `CreateApplication`: open a session, pre-check the tenant,
generate the application identifier and insert the row, returning the
identifier together with any error. -/
def CreateApplication (env : Env) (tenantID : SystemUUID) (application : Application)
    (db : DB) : (SystemUUID × Option GoError) × DB :=
  match env.sessionErr with
  | some e => ((EmptyUUID, some (.dependency e)), db)
  | none =>
      if !doesTenantExist tenantID db then
        ((EmptyUUID, some (.notFound (tenantNotFoundMsg tenantID))), db)
      else
        match env.genErr with
        | some e => ((EmptyUUID, some (.dependency e)), db)
        | none =>
            let r := addOrUpdateApplication env tenantID env.genUUID application db
            ((env.genUUID, r.1), r.2)

/-- Operation `UpdateApplication`: open a session, pre-check tenant then
application, then insert (overwrite). -/
def UpdateApplication (env : Env) (tenantID applicationID : SystemUUID)
    (application : Application) (db : DB) : Option GoError × DB :=
  match env.sessionErr with
  | some e => (some (.dependency e), db)
  | none =>
      if !doesTenantExist tenantID db then
        (some (.notFound (tenantNotFoundMsg tenantID)), db)
      else if !doesApplicationExist tenantID applicationID db then
        (some (.notFound (applicationNotFoundMsg tenantID applicationID)), db)
      else
        addOrUpdateApplication env tenantID applicationID application db

/-- Operation `ReadApplication`: open a session, pre-check the tenant,
then read the application row. -/
def ReadApplication (env : Env) (tenantID applicationID : SystemUUID) (db : DB) :
    Application × Option GoError :=
  match env.sessionErr with
  | some e => (⟨""⟩, some (.dependency e))
  | none =>
      if !doesTenantExist tenantID db then
        (⟨""⟩, some (.notFound (tenantNotFoundMsg tenantID)))
      else
        readApplication tenantID applicationID db

/-- Operation `ReadAllApplications`: open a session, pre-check the
tenant, then read all application rows of the tenant (the Go nil map of
the failure paths is the empty list). -/
def ReadAllApplications (env : Env) (tenantID : SystemUUID) (db : DB) :
    List (SystemUUID × Application) × Option GoError :=
  match env.sessionErr with
  | some e => ([], some (.dependency e))
  | none =>
      if !doesTenantExist tenantID db then
        ([], some (.notFound (tenantNotFoundMsg tenantID)))
      else
        (readAllApplications tenantID db, none)

/-- Operation `DeleteApplication`: open a session, pre-check tenant then
application, then DELETE the application row. -/
def DeleteApplication (env : Env) (tenantID applicationID : SystemUUID) (db : DB) :
    Option GoError × DB :=
  match env.sessionErr with
  | some e => (some (.dependency e), db)
  | none =>
      if !doesTenantExist tenantID db then
        (some (.notFound (tenantNotFoundMsg tenantID)), db)
      else if !doesApplicationExist tenantID applicationID db then
        (some (.notFound (applicationNotFoundMsg tenantID applicationID)), db)
      else
        match env.execErr with
        | some e => (some (.dependency e), db)
        | none =>
            let mappedTenantID := mapSystemUUIDToGocqlUUID tenantID
            let mappedApplicationID := mapSystemUUIDToGocqlUUID applicationID
            let newRows := deleteRows (mappedTenantID, mappedApplicationID) db.application
            (none, { db with application := newRows })

/-- One invocation of the service, with its arguments. -/
inductive Op where
  | createTenant (tenant : Tenant)
  | updateTenant (tenantID : SystemUUID) (tenant : Tenant)
  | readTenant (tenantID : SystemUUID)
  | deleteTenant (tenantID : SystemUUID)
  | createApplication (tenantID : SystemUUID) (application : Application)
  | updateApplication (tenantID applicationID : SystemUUID) (application : Application)
  | readApplication (tenantID applicationID : SystemUUID)
  | readAllApplications (tenantID : SystemUUID)
  | deleteApplication (tenantID applicationID : SystemUUID)

/-- Return value of one invocation, by shape. -/
inductive OpResult where
  | unitResult (err : Option GoError)
  | uuidResult (id : SystemUUID) (err : Option GoError)
  | tenantResult (tenant : Tenant) (err : Option GoError)
  | applicationResult (application : Application) (err : Option GoError)
  | applicationsResult (applications : List (SystemUUID × Application)) (err : Option GoError)

/-- The error component of a return value. -/
def OpResult.errOf : OpResult → Option GoError
  | .unitResult e => e
  | .uuidResult _ e => e
  | .tenantResult _ e => e
  | .applicationResult _ e => e
  | .applicationsResult _ e => e

/-- Run one invocation against the stored tables, yielding its return
value and the tables afterwards. -/
def Op.run (op : Op) (env : Env) (db : DB) : OpResult × DB :=
  match op with
  | .createTenant t =>
      let r := CreateTenant env t db
      (.uuidResult r.1.1 r.1.2, r.2)
  | .updateTenant tid t =>
      let r := UpdateTenant env tid t db
      (.unitResult r.1, r.2)
  | .readTenant tid =>
      let r := ReadTenant env tid db
      (.tenantResult r.1 r.2, db)
  | .deleteTenant tid =>
      let r := DeleteTenant env tid db
      (.unitResult r.1, r.2)
  | .createApplication tid a =>
      let r := CreateApplication env tid a db
      (.uuidResult r.1.1 r.1.2, r.2)
  | .updateApplication tid aid a =>
      let r := UpdateApplication env tid aid a db
      (.unitResult r.1, r.2)
  | .readApplication tid aid =>
      let r := ReadApplication env tid aid db
      (.applicationResult r.1 r.2, db)
  | .readAllApplications tid =>
      let r := ReadAllApplications env tid db
      (.applicationsResult r.1 r.2, db)
  | .deleteApplication tid aid =>
      let r := DeleteApplication env tid aid db
      (.unitResult r.1, r.2)

/-- The tenant identifier an invocation references, if any. -/
def Op.tenantArg : Op → Option SystemUUID
  | .createTenant _ => none
  | .updateTenant tid _ => some tid
  | .readTenant tid => some tid
  | .deleteTenant tid => some tid
  | .createApplication tid _ => some tid
  | .updateApplication tid _ _ => some tid
  | .readApplication tid _ => some tid
  | .readAllApplications tid => some tid
  | .deleteApplication tid _ => some tid

/-- The application identifier an invocation references, if any. -/
def Op.applicationArg : Op → Option SystemUUID
  | .updateApplication _ aid _ => some aid
  | .readApplication _ aid => some aid
  | .deleteApplication _ aid => some aid
  | _ => none

/-- Whether the invocation is a `DeleteTenant`. -/
def Op.isDeleteTenant : Op → Bool
  | .deleteTenant _ => true
  | _ => false

/-- Referential integrity: every application row points at an existing
tenant row. -/
def refIntegrity (db : DB) : Prop :=
  ∀ r ∈ db.application, r.1.1 ∈ db.tenant.map Prod.fst

/-- The message mentions the canonical textual form of the identifier. -/
def carriesUUID (msg : String) (u : SystemUUID) : Prop :=
  ∃ p q : List Char, msg.data = p ++ (uuidString u).data ++ q

instance (db : DB) : Decidable (refIntegrity db) :=
  inferInstanceAs (Decidable (∀ r ∈ db.application, r.1.1 ∈ db.tenant.map Prod.fst))

/-- Concrete identifier used for evaluating the operations. -/
def uuidA : SystemUUID := ⟨[0, 0, 0, 0, 0, 0, 0, 0, 0, 0, 0, 0, 0, 0, 0, 1], rfl⟩

/-- A second concrete identifier. -/
def uuidB : SystemUUID := ⟨[0, 0, 0, 0, 0, 0, 0, 0, 0, 0, 0, 0, 0, 0, 0, 2], rfl⟩

/-- A third concrete identifier. -/
def uuidC : SystemUUID := ⟨[0, 0, 0, 0, 0, 0, 0, 0, 0, 0, 0, 0, 0, 0, 0, 3], rfl⟩

/-- Environment in which every collaborator succeeds and the generator
yields the given identifier. -/
def envGen (u : SystemUUID) : Env := ⟨none, u, none, none⟩

/-- Environment in which the single mutating statement fails with the
given driver error, everything else succeeding. -/
def envExecFail (u : SystemUUID) (msg : String) : Env := ⟨none, u, none, some msg⟩

/-- Database with no rows at all. -/
def emptyDB : DB := ⟨[], []⟩

/-- Database holding one tenant row and no application rows. -/
def dbOneTenant : DB := ⟨[(stringParam uuidB, "s3cr3t")], []⟩

/-- Database holding one tenant row and one application row under it. -/
def dbTenantApp : DB :=
  ⟨[(stringParam uuidA, "s3cr3t")], [((stringParam uuidA, stringParam uuidB), "billing")]⟩

theorem scanHasRow_eq_false_iff {ν : Type} (l : List ν) : scanHasRow l = false ↔ l = [] := by
  cases l <;> simp [scanHasRow]

theorem scanHasRow_eq_true_iff {ν : Type} (l : List ν) : scanHasRow l = true ↔ l ≠ [] := by
  cases l <;> simp [scanHasRow]

theorem rowsFor_eq_nil_iff {κ ν : Type} [DecidableEq κ] (k : κ) (rows : List (κ × ν)) :
    rowsFor k rows = [] ↔ k ∉ rows.map Prod.fst := by
  induction rows with
  | nil => simp [rowsFor]
  | cons r rest ih =>
      rw [List.map_cons, List.mem_cons]
      by_cases h : r.1 = k
      · simp only [rowsFor, if_pos h]
        constructor
        · intro hc
          cases hc
        · intro hc
          exact absurd (Or.inl h.symm) hc
      · simp only [rowsFor, if_neg h, ih]
        constructor
        · intro hc hm
          rcases hm with hm | hm
          · exact h hm.symm
          · exact hc hm
        · intro hc hm
          exact hc (Or.inr hm)

theorem rowsFor_upsert_self {κ ν : Type} [DecidableEq κ] (k : κ) (v : ν)
    (rows : List (κ × ν)) : rowsFor k (upsertRow k v rows) = v :: (rowsFor k rows).tail := by
  induction rows with
  | nil => simp [rowsFor, upsertRow]
  | cons r rest ih =>
      by_cases h : r.1 = k <;> simp [rowsFor, upsertRow, h, ih]

theorem rowsFor_upsert_ne {κ ν : Type} [DecidableEq κ] {k2 k : κ} (h : k2 ≠ k) (v : ν)
    (rows : List (κ × ν)) : rowsFor k2 (upsertRow k v rows) = rowsFor k2 rows := by
  induction rows with
  | nil => simp only [upsertRow, rowsFor, if_neg (Ne.symm h)]
  | cons r rest ih =>
      by_cases hr : r.1 = k
      · subst hr
        rw [upsertRow, if_pos rfl]
        simp only [rowsFor, if_neg (Ne.symm h)]
      · rw [upsertRow, if_neg hr]
        simp only [rowsFor, ih]

theorem rowsFor_delete_self {κ ν : Type} [DecidableEq κ] (k : κ) (rows : List (κ × ν)) :
    rowsFor k (deleteRows k rows) = [] := by
  induction rows with
  | nil => simp [rowsFor, deleteRows]
  | cons r rest ih =>
      by_cases h : r.1 = k <;> simp [rowsFor, deleteRows, h, ih]

theorem rowsFor_delete_ne {κ ν : Type} [DecidableEq κ] {k2 k : κ} (h : k2 ≠ k)
    (rows : List (κ × ν)) : rowsFor k2 (deleteRows k rows) = rowsFor k2 rows := by
  induction rows with
  | nil => simp [deleteRows]
  | cons r rest ih =>
      by_cases hr : r.1 = k
      · subst hr
        rw [deleteRows, if_pos rfl, ih]
        simp only [rowsFor, if_neg (Ne.symm h)]
      · rw [deleteRows, if_neg hr]
        simp only [rowsFor, ih]

theorem length_rowsFor_le_one {κ ν : Type} [DecidableEq κ] (k : κ) {rows : List (κ × ν)}
    (h : (rows.map Prod.fst).Nodup) : (rowsFor k rows).length ≤ 1 := by
  induction rows with
  | nil => simp [rowsFor]
  | cons r rest ih =>
      rw [List.map_cons, List.nodup_cons] at h
      by_cases hr : r.1 = k
      · have : rowsFor k rest = [] := by
          rw [rowsFor_eq_nil_iff]
          exact hr ▸ h.1
        simp [rowsFor, hr, this]
      · simp only [rowsFor, if_neg hr]
        exact ih h.2

theorem upsert_of_not_mem_keys {κ ν : Type} [DecidableEq κ] {k : κ} (v : ν)
    {rows : List (κ × ν)} (h : k ∉ rows.map Prod.fst) :
    upsertRow k v rows = rows ++ [(k, v)] := by
  induction rows with
  | nil => simp [upsertRow]
  | cons r rest ih =>
      rw [List.map_cons, List.mem_cons] at h
      push_neg at h
      have hr : r.1 ≠ k := fun he => h.1 he.symm
      simp [upsertRow, hr, ih h.2]

theorem mem_keys_upsert_self {κ ν : Type} [DecidableEq κ] (k : κ) (v : ν)
    (rows : List (κ × ν)) : k ∈ (upsertRow k v rows).map Prod.fst := by
  induction rows with
  | nil => simp [upsertRow]
  | cons r rest ih =>
      by_cases h : r.1 = k <;> simp [upsertRow, h, ih]

theorem mem_keys_upsert_of_mem {κ ν : Type} [DecidableEq κ] {k2 k : κ} (v : ν)
    {rows : List (κ × ν)} (h : k2 ∈ rows.map Prod.fst) :
    k2 ∈ (upsertRow k v rows).map Prod.fst := by
  induction rows with
  | nil => simp at h
  | cons r rest ih =>
      rw [List.map_cons, List.mem_cons] at h
      by_cases hr : r.1 = k
      · rcases h with h | h
        · subst hr
          simp [upsertRow, h]
        · simp [upsertRow, hr, h]
      · rcases h with h | h
        · simp [upsertRow, hr, h]
        · simp [upsertRow, hr, ih h]

theorem eq_or_mem_of_mem_upsert {κ ν : Type} [DecidableEq κ] {k : κ} {v : ν}
    {r : κ × ν} {rows : List (κ × ν)} (h : r ∈ upsertRow k v rows) :
    r = (k, v) ∨ r ∈ rows := by
  induction rows with
  | nil => simpa [upsertRow] using h
  | cons r2 rest ih =>
      by_cases hr : r2.1 = k
      · rw [upsertRow, if_pos hr, List.mem_cons] at h
        rcases h with h | h
        · exact Or.inl h
        · exact Or.inr (List.mem_cons_of_mem _ h)
      · rw [upsertRow, if_neg hr, List.mem_cons] at h
        rcases h with h | h
        · exact Or.inr (h ▸ List.mem_cons_self _ _)
        · rcases ih h with h | h
          · exact Or.inl h
          · exact Or.inr (List.mem_cons_of_mem _ h)

theorem mem_of_mem_delete {κ ν : Type} [DecidableEq κ] {k : κ} {r : κ × ν}
    {rows : List (κ × ν)} (h : r ∈ deleteRows k rows) : r ∈ rows := by
  induction rows with
  | nil =>
      rw [deleteRows] at h
      exact h
  | cons r2 rest ih =>
      by_cases hr : r2.1 = k
      · rw [deleteRows, if_pos hr] at h
        exact List.mem_cons_of_mem _ (ih h)
      · rw [deleteRows, if_neg hr, List.mem_cons] at h
        rcases h with h | h
        · exact h ▸ List.mem_cons_self _ _
        · exact List.mem_cons_of_mem _ (ih h)

theorem bytes_mapSystemUUIDToGocqlUUID (u : SystemUUID) :
    (mapSystemUUIDToGocqlUUID u).bytes = u.bytes := by
  rw [mapSystemUUIDToGocqlUUID, gocqlUUIDFromBytes, dif_pos u.size_eq]

theorem bytes_mapGocqlUUIDToSystemUUID (g : GocqlUUID) :
    (mapGocqlUUIDToSystemUUID g).bytes = g.bytes := by
  rw [mapGocqlUUIDToSystemUUID, systemUUIDFromBytes, dif_pos g.size_eq]

theorem mapSystemUUIDToGocqlUUID_eq_stringParam (u : SystemUUID) :
    mapSystemUUIDToGocqlUUID u = stringParam u :=
  gocqlUUID_eq_of_bytes_eq (bytes_mapSystemUUIDToGocqlUUID u)

theorem map_roundtrip_system (u : SystemUUID) :
    mapGocqlUUIDToSystemUUID (mapSystemUUIDToGocqlUUID u) = u :=
  systemUUID_eq_of_bytes_eq
    ((bytes_mapGocqlUUIDToSystemUUID _).trans (bytes_mapSystemUUIDToGocqlUUID u))

theorem map_roundtrip_gocql (g : GocqlUUID) :
    mapSystemUUIDToGocqlUUID (mapGocqlUUIDToSystemUUID g) = g :=
  gocqlUUID_eq_of_bytes_eq
    ((bytes_mapSystemUUIDToGocqlUUID _).trans (bytes_mapGocqlUUIDToSystemUUID g))

theorem mapGocqlUUIDToSystemUUID_injective {a b : GocqlUUID}
    (h : mapGocqlUUIDToSystemUUID a = mapGocqlUUIDToSystemUUID b) : a = b := by
  have := congrArg SystemUUID.bytes h
  rw [bytes_mapGocqlUUIDToSystemUUID, bytes_mapGocqlUUIDToSystemUUID] at this
  exact gocqlUUID_eq_of_bytes_eq this

theorem doesTenantExist_eq_false_iff (tenantID : SystemUUID) (db : DB) :
    doesTenantExist tenantID db = false ↔ stringParam tenantID ∉ db.tenant.map Prod.fst := by
  rw [doesTenantExist, scanHasRow_eq_false_iff, rowsFor_eq_nil_iff]

theorem bool_eq_true_iff_of_eq_false_iff {b : Bool} {p : Prop} (h : (b = false) ↔ ¬p) :
    b = true ↔ p := by
  cases b <;> simp_all

theorem doesTenantExist_eq_true_iff (tenantID : SystemUUID) (db : DB) :
    doesTenantExist tenantID db = true ↔ stringParam tenantID ∈ db.tenant.map Prod.fst :=
  bool_eq_true_iff_of_eq_false_iff (doesTenantExist_eq_false_iff tenantID db)

theorem doesApplicationExist_eq_false_iff (tenantID applicationID : SystemUUID) (db : DB) :
    doesApplicationExist tenantID applicationID db = false ↔
      (stringParam tenantID, stringParam applicationID) ∉ db.application.map Prod.fst := by
  rw [doesApplicationExist, scanHasRow_eq_false_iff, rowsFor_eq_nil_iff]

theorem doesApplicationExist_eq_true_iff (tenantID applicationID : SystemUUID) (db : DB) :
    doesApplicationExist tenantID applicationID db = true ↔
      (stringParam tenantID, stringParam applicationID) ∈ db.application.map Prod.fst :=
  bool_eq_true_iff_of_eq_false_iff (doesApplicationExist_eq_false_iff tenantID applicationID db)

theorem carriesUUID_of_append (a : String) (u : SystemUUID) :
    carriesUUID (a ++ uuidString u) u :=
  ⟨a.data, [], by simp [String.data_append]⟩

theorem carriesUUID_of_append_left (a b : String) (u v : SystemUUID) :
    carriesUUID (a ++ uuidString u ++ b ++ uuidString v) u :=
  ⟨a.data, b.data ++ (uuidString v).data, by simp [String.data_append]⟩

theorem carriesUUID_of_append_right (a b : String) (u v : SystemUUID) :
    carriesUUID (a ++ uuidString u ++ b ++ uuidString v) v :=
  ⟨(a ++ uuidString u ++ b).data, [], by simp [String.data_append]⟩

theorem applicationRowsOf_sublist (tk : GocqlUUID)
    (rows : List ((GocqlUUID × GocqlUUID) × String)) :
    (applicationRowsOf tk rows).Sublist rows := by
  induction rows with
  | nil => simp [applicationRowsOf]
  | cons r rest ih =>
      by_cases h : r.1.1 = tk
      · rw [applicationRowsOf, if_pos h]
        exact ih.cons₂ r
      · rw [applicationRowsOf, if_neg h]
        exact ih.cons r

theorem mem_applicationRowsOf_iff (tk : GocqlUUID) {r : (GocqlUUID × GocqlUUID) × String}
    (rows : List ((GocqlUUID × GocqlUUID) × String)) :
    r ∈ applicationRowsOf tk rows ↔ r ∈ rows ∧ r.1.1 = tk := by
  induction rows with
  | nil => simp [applicationRowsOf]
  | cons r2 rest ih =>
      by_cases h : r2.1.1 = tk
      · rw [applicationRowsOf, if_pos h, List.mem_cons, List.mem_cons, ih]
        constructor
        · intro hc
          rcases hc with rfl | ⟨hr, hk⟩
          · exact ⟨Or.inl rfl, h⟩
          · exact ⟨Or.inr hr, hk⟩
        · intro hc
          rcases hc with ⟨rfl | hr, hk⟩
          · exact Or.inl rfl
          · exact Or.inr ⟨hr, hk⟩
      · rw [applicationRowsOf, if_neg h, ih, List.mem_cons]
        constructor
        · intro hc
          exact ⟨Or.inr hc.1, hc.2⟩
        · intro hc
          rcases hc with ⟨rfl | hr, hk⟩
          · exact absurd hk h
          · exact ⟨hr, hk⟩

theorem foldl_upsert_eq_append {κ ν ρ : Type} [DecidableEq κ] (f : ρ → κ) (g : ρ → ν)
    (l : List ρ) :
    ∀ acc : List (κ × ν), (l.map f).Nodup → (∀ r ∈ l, f r ∉ acc.map Prod.fst) →
      l.foldl (fun a r => upsertRow (f r) (g r) a) acc = acc ++ l.map (fun r => (f r, g r)) := by
  induction l with
  | nil =>
      intro acc _ _
      simp
  | cons r rest ih =>
      intro acc hnodup hdisj
      rw [List.map_cons, List.nodup_cons] at hnodup
      obtain ⟨hfr, hnd⟩ := hnodup
      have h1 : f r ∉ acc.map Prod.fst := hdisj r (List.mem_cons_self r rest)
      have hdisj2 : ∀ x ∈ rest, f x ∉ (acc ++ [(f r, g r)]).map Prod.fst := by
        intro x hx
        rw [List.map_append, List.mem_append]
        rintro (hmem | hmem)
        · exact hdisj x (List.mem_cons_of_mem _ hx) hmem
        · rw [List.map_cons, List.map_nil, List.mem_singleton] at hmem
          have hfx : f x = f r := hmem
          exact hfr (hfx ▸ List.mem_map_of_mem f hx)
      rw [List.foldl_cons, upsert_of_not_mem_keys (g r) h1, ih (acc ++ [(f r, g r)]) hnd hdisj2,
        List.map_cons, List.append_assoc, List.singleton_append]

theorem readAllApplications_eq_map (tenantID : SystemUUID) (db : DB)
    (hWF : (db.application.map Prod.fst).Nodup) :
    readAllApplications tenantID db =
      (applicationRowsOf (stringParam tenantID) db.application).map
        (fun r => (mapGocqlUUIDToSystemUUID r.1.2, ⟨r.2⟩)) := by
  have hsub : ((applicationRowsOf (stringParam tenantID) db.application).map Prod.fst).Sublist
      (db.application.map Prod.fst) :=
    (applicationRowsOf_sublist (stringParam tenantID) db.application).map Prod.fst
  have hkeys : ((applicationRowsOf (stringParam tenantID) db.application).map Prod.fst).Nodup :=
    hWF.sublist hsub
  have hmapped : ((applicationRowsOf (stringParam tenantID) db.application).map
      (fun r => mapGocqlUUIDToSystemUUID r.1.2)).Nodup := by
    have heq : (applicationRowsOf (stringParam tenantID) db.application).map
        (fun r => mapGocqlUUIDToSystemUUID r.1.2) =
        ((applicationRowsOf (stringParam tenantID) db.application).map Prod.fst).map
          (fun k => mapGocqlUUIDToSystemUUID k.2) := by
      rw [List.map_map]
      rfl
    rw [heq]
    refine List.Nodup.map_on ?_ hkeys
    intro x hx y hy hxy
    have hx2 : x.1 = stringParam tenantID := by
      rcases List.mem_map.mp hx with ⟨rx, hrx, hkx⟩
      have := (mem_applicationRowsOf_iff (stringParam tenantID) db.application).mp hrx
      rw [← hkx]
      exact this.2
    have hy2 : y.1 = stringParam tenantID := by
      rcases List.mem_map.mp hy with ⟨ry, hry, hky⟩
      have := (mem_applicationRowsOf_iff (stringParam tenantID) db.application).mp hry
      rw [← hky]
      exact this.2
    have hsnd : x.2 = y.2 := mapGocqlUUIDToSystemUUID_injective hxy
    exact Prod.ext (hx2.trans hy2.symm) hsnd
  rw [readAllApplications]
  exact foldl_upsert_eq_append _ _ _ [] hmapped (by simp)

/-- C10: converting a system UUID to a gocql UUID and back yields the original
value, the raw 16-byte sequence being preserved by both conversions. -/
theorem uuid_roundtrip_preserves_bytes (u : SystemUUID) :
    (mapSystemUUIDToGocqlUUID u).bytes = u.bytes ∧
    (mapGocqlUUIDToSystemUUID (mapSystemUUIDToGocqlUUID u)).bytes = u.bytes ∧
    mapGocqlUUIDToSystemUUID (mapSystemUUIDToGocqlUUID u) = u :=
  ⟨bytes_mapSystemUUIDToGocqlUUID u,
   congrArg SystemUUID.bytes (map_roundtrip_system u),
   map_roundtrip_system u⟩

/-- C3: when no tenant row exists for the identifier, ReadTenant, UpdateTenant
and DeleteTenant each fail with the tenant not-found error (session creation
succeeding), leaving the tables unchanged. -/
theorem absent_tenant_ops_notFound (env : Env) (tenantID : SystemUUID) (tenant : Tenant)
    (db : DB) (hsess : env.sessionErr = none)
    (habs : stringParam tenantID ∉ db.tenant.map Prod.fst) :
    ReadTenant env tenantID db = (⟨""⟩, some (.notFound (tenantNotFoundMsg tenantID))) ∧
    UpdateTenant env tenantID tenant db = (some (.notFound (tenantNotFoundMsg tenantID)), db) ∧
    DeleteTenant env tenantID db = (some (.notFound (tenantNotFoundMsg tenantID)), db) := by
  have hrows : rowsFor (stringParam tenantID) db.tenant = [] :=
    (rowsFor_eq_nil_iff _ _).mpr habs
  have hex : doesTenantExist tenantID db = false := by
    rw [doesTenantExist, hrows]
    rfl
  refine ⟨?_, ?_, ?_⟩
  · simp only [ReadTenant, hsess, readTenant, hrows]
  · simp only [UpdateTenant, hsess, hex, Bool.not_false, if_true]
  · simp only [DeleteTenant, hsess, hex, Bool.not_false, if_true]

/-- Witness for C3 at a concrete input: the empty database holds no row for
the identifier, and all three operations report it missing. -/
theorem absent_tenant_ops_notFound_witness :
    (envGen uuidB).sessionErr = none ∧
    stringParam uuidA ∉ emptyDB.tenant.map Prod.fst ∧
    (ReadTenant (envGen uuidB) uuidA emptyDB =
        (⟨""⟩, some (.notFound (tenantNotFoundMsg uuidA))) ∧
      UpdateTenant (envGen uuidB) uuidA ⟨"k1"⟩ emptyDB =
        (some (.notFound (tenantNotFoundMsg uuidA)), emptyDB) ∧
      DeleteTenant (envGen uuidB) uuidA emptyDB =
        (some (.notFound (tenantNotFoundMsg uuidA)), emptyDB)) :=
  ⟨rfl, by simp [emptyDB],
   absent_tenant_ops_notFound (envGen uuidB) uuidA ⟨"k1"⟩ emptyDB rfl (by simp [emptyDB])⟩

/-- C4: a successful CreateTenant followed by ReadTenant of the returned
identifier (no intervening mutation) yields a tenant record equal to the one
stored. -/
theorem createTenant_then_readTenant (env1 env2 : Env) (tenant : Tenant) (db : DB)
    (h1 : (CreateTenant env1 tenant db).1.2 = none) (h2 : env2.sessionErr = none) :
    ReadTenant env2 (CreateTenant env1 tenant db).1.1 (CreateTenant env1 tenant db).2 =
      (tenant, none) := by
  cases hgen : env1.genErr with
  | some e =>
      rw [CreateTenant, hgen] at h1
      cases h1
  | none =>
      cases hsess : env1.sessionErr with
      | some e =>
          rw [CreateTenant, hgen, hsess] at h1
          cases h1
      | none =>
          cases hexec : env1.execErr with
          | some e =>
              simp only [CreateTenant, hgen, hsess, addOrUpdateTenant, hexec] at h1
              cases h1
          | none =>
              simp only [CreateTenant, hgen, hsess, addOrUpdateTenant, hexec,
                ReadTenant, h2, readTenant]
              rw [mapSystemUUIDToGocqlUUID_eq_stringParam, rowsFor_upsert_self]

/-- Witness for C4 at a concrete input. -/
theorem createTenant_then_readTenant_witness :
    (CreateTenant (envGen uuidA) ⟨"s3cr3t"⟩ emptyDB).1.2 = none ∧
    (envGen uuidB).sessionErr = none ∧
    ReadTenant (envGen uuidB) (CreateTenant (envGen uuidA) ⟨"s3cr3t"⟩ emptyDB).1.1
      (CreateTenant (envGen uuidA) ⟨"s3cr3t"⟩ emptyDB).2 = (⟨"s3cr3t"⟩, none) :=
  ⟨rfl, rfl, createTenant_then_readTenant (envGen uuidA) (envGen uuidB) ⟨"s3cr3t"⟩ emptyDB rfl rfl⟩

/-- C9: when identifier generation and session creation succeed but the insert
statement fails, CreateTenant returns the freshly generated tenant identifier
(rather than falling back to the empty UUID) together with the propagated
error, and CreateApplication, its tenant pre-check passing, likewise returns
the freshly generated application identifier together with the insert error. -/
theorem create_returns_generated_id_on_exec_failure (env : Env) (tenant : Tenant)
    (application : Application) (tenantID : SystemUUID) (db : DB) (e : String)
    (hgen : env.genErr = none) (hsess : env.sessionErr = none) (hexec : env.execErr = some e) :
    CreateTenant env tenant db = ((env.genUUID, some (.dependency e)), db) ∧
    (doesTenantExist tenantID db = true →
      CreateApplication env tenantID application db =
        ((env.genUUID, some (.dependency e)), db)) := by
  constructor
  · simp only [CreateTenant, hgen, hsess, addOrUpdateTenant, hexec]
  · intro hex
    simp only [CreateApplication, hsess, hex, Bool.not_true, hgen,
      addOrUpdateApplication, hexec]
    simp

/-- Witness for C9 at a concrete input. -/
theorem create_returns_generated_id_on_exec_failure_witness :
    (envExecFail uuidA "statement failed").genErr = none ∧
    (envExecFail uuidA "statement failed").sessionErr = none ∧
    (envExecFail uuidA "statement failed").execErr = some "statement failed" ∧
    (CreateTenant (envExecFail uuidA "statement failed") ⟨"k2"⟩ dbOneTenant =
        (((envExecFail uuidA "statement failed").genUUID,
          some (.dependency "statement failed")), dbOneTenant) ∧
      (doesTenantExist uuidB dbOneTenant = true →
        CreateApplication (envExecFail uuidA "statement failed") uuidB ⟨"billing"⟩ dbOneTenant =
          (((envExecFail uuidA "statement failed").genUUID,
            some (.dependency "statement failed")), dbOneTenant))) :=
  ⟨rfl, rfl, rfl,
   create_returns_generated_id_on_exec_failure (envExecFail uuidA "statement failed")
     ⟨"k2"⟩ ⟨"billing"⟩ uuidB dbOneTenant "statement failed" rfl rfl rfl⟩

/-- C7: under the engine guarantee that a primary key identifies at most one
row, each existence check succeeds exactly when one stored row matches the
key, and its result depends only on which keys are present, not on any row
data. -/
theorem existence_checks_iff_unique_row (db : DB) (hWF : db.WF)
    (tenantID applicationID : SystemUUID) :
    (doesTenantExist tenantID db = true ↔
      (rowsFor (stringParam tenantID) db.tenant).length = 1) ∧
    (doesApplicationExist tenantID applicationID db = true ↔
      (rowsFor (stringParam tenantID, stringParam applicationID) db.application).length = 1) ∧
    (∀ db2 : DB, db.tenant.map Prod.fst = db2.tenant.map Prod.fst →
      doesTenantExist tenantID db = doesTenantExist tenantID db2) ∧
    (∀ db2 : DB, db.application.map Prod.fst = db2.application.map Prod.fst →
      doesApplicationExist tenantID applicationID db =
        doesApplicationExist tenantID applicationID db2) := by
  refine ⟨?_, ?_, ?_, ?_⟩
  · rw [doesTenantExist, scanHasRow_eq_true_iff]
    constructor
    · intro hne
      have hle := length_rowsFor_le_one (stringParam tenantID) hWF.1
      have hpos : 0 < (rowsFor (stringParam tenantID) db.tenant).length :=
        List.length_pos.mpr hne
      omega
    · intro hlen
      intro hnil
      rw [hnil] at hlen
      cases hlen
  · rw [doesApplicationExist, scanHasRow_eq_true_iff]
    constructor
    · intro hne
      have hle := length_rowsFor_le_one (stringParam tenantID, stringParam applicationID) hWF.2
      have hpos : 0 <
          (rowsFor (stringParam tenantID, stringParam applicationID) db.application).length :=
        List.length_pos.mpr hne
      omega
    · intro hlen
      intro hnil
      rw [hnil] at hlen
      cases hlen
  · intro db2 hkeys
    have h1 := doesTenantExist_eq_true_iff tenantID db
    have h2 := doesTenantExist_eq_true_iff tenantID db2
    rw [hkeys] at h1
    cases hb : doesTenantExist tenantID db2
    · cases hc : doesTenantExist tenantID db
      · rfl
      · exact absurd (h2.mpr (h1.mp hc)) (by rw [hb]; intro hcon; cases hcon)
    · exact h1.mpr (h2.mp hb)
  · intro db2 hkeys
    have h1 := doesApplicationExist_eq_true_iff tenantID applicationID db
    have h2 := doesApplicationExist_eq_true_iff tenantID applicationID db2
    rw [hkeys] at h1
    cases hb : doesApplicationExist tenantID applicationID db2
    · cases hc : doesApplicationExist tenantID applicationID db
      · rfl
      · exact absurd (h2.mpr (h1.mp hc)) (by rw [hb]; intro hcon; cases hcon)
    · exact h1.mpr (h2.mp hb)

/-- Witness for C7 at a concrete input. -/
theorem existence_checks_iff_unique_row_witness :
    dbTenantApp.WF ∧
    ((doesTenantExist uuidA dbTenantApp = true ↔
        (rowsFor (stringParam uuidA) dbTenantApp.tenant).length = 1) ∧
      (doesApplicationExist uuidA uuidB dbTenantApp = true ↔
        (rowsFor (stringParam uuidA, stringParam uuidB) dbTenantApp.application).length = 1) ∧
      (∀ db2 : DB, dbTenantApp.tenant.map Prod.fst = db2.tenant.map Prod.fst →
        doesTenantExist uuidA dbTenantApp = doesTenantExist uuidA db2) ∧
      (∀ db2 : DB, dbTenantApp.application.map Prod.fst = db2.application.map Prod.fst →
        doesApplicationExist uuidA uuidB dbTenantApp =
          doesApplicationExist uuidA uuidB db2)) :=
  ⟨by constructor <;> decide,
   existence_checks_iff_unique_row dbTenantApp (by constructor <;> decide) uuidA uuidB⟩

/-- C5: UpdateApplication fails with the tenant not-found error when the
tenant row is absent; fails with the application not-found error naming both
identifiers when the tenant exists but the application row is absent; and when
both exist (and the statement succeeds) overwrites the stored application name
at that same key, leaving the tenant table and every other application key
untouched. -/
theorem updateApplication_cases (env : Env) (tenantID applicationID : SystemUUID)
    (application : Application) (db : DB) (hsess : env.sessionErr = none) :
    (doesTenantExist tenantID db = false →
      UpdateApplication env tenantID applicationID application db =
        (some (.notFound (tenantNotFoundMsg tenantID)), db)) ∧
    (doesTenantExist tenantID db = true →
      doesApplicationExist tenantID applicationID db = false →
      UpdateApplication env tenantID applicationID application db =
        (some (.notFound (applicationNotFoundMsg tenantID applicationID)), db)) ∧
    (doesTenantExist tenantID db = true →
      doesApplicationExist tenantID applicationID db = true →
      env.execErr = none → db.WF →
      (UpdateApplication env tenantID applicationID application db).1 = none ∧
      (UpdateApplication env tenantID applicationID application db).2.tenant = db.tenant ∧
      rowsFor (stringParam tenantID, stringParam applicationID)
        (UpdateApplication env tenantID applicationID application db).2.application =
        [application.Name] ∧
      (∀ k : GocqlUUID × GocqlUUID, k ≠ (stringParam tenantID, stringParam applicationID) →
        rowsFor k (UpdateApplication env tenantID applicationID application db).2.application =
          rowsFor k db.application)) := by
  refine ⟨?_, ?_, ?_⟩
  · intro hten
    simp only [UpdateApplication, hsess, hten, Bool.not_false, if_true]
  · intro hten happ
    simp only [UpdateApplication, hsess, hten, Bool.not_true, happ, Bool.not_false, if_true]
    simp
  · intro hten happ hexec hWF
    have hresult : UpdateApplication env tenantID applicationID application db =
        (none, DB.mk db.tenant
          (upsertRow (stringParam tenantID, stringParam applicationID)
            application.Name db.application)) := by
      simp only [UpdateApplication, hsess, hten, Bool.not_true, happ,
        addOrUpdateApplication, hexec, mapSystemUUIDToGocqlUUID_eq_stringParam]
      simp
    rw [hresult]
    have hlen : (rowsFor (stringParam tenantID, stringParam applicationID)
        db.application).length = 1 := by
      rw [doesApplicationExist, scanHasRow_eq_true_iff] at happ
      have hle := length_rowsFor_le_one (stringParam tenantID, stringParam applicationID) hWF.2
      have hpos := List.length_pos.mpr happ
      omega
    refine ⟨rfl, rfl, ?_, ?_⟩
    · rw [rowsFor_upsert_self]
      have htail : (rowsFor (stringParam tenantID, stringParam applicationID)
          db.application).tail = [] := by
        apply List.eq_nil_of_length_eq_zero
        rw [List.length_tail, hlen]
      rw [htail]
    · intro k hk
      exact rowsFor_upsert_ne hk application.Name db.application

/-- Witness for C5 at a concrete input. -/
theorem updateApplication_cases_witness :
    (envGen uuidC).sessionErr = none ∧
    ((doesTenantExist uuidA dbTenantApp = false →
        UpdateApplication (envGen uuidC) uuidA uuidB ⟨"renamed"⟩ dbTenantApp =
          (some (.notFound (tenantNotFoundMsg uuidA)), dbTenantApp)) ∧
      (doesTenantExist uuidA dbTenantApp = true →
        doesApplicationExist uuidA uuidB dbTenantApp = false →
        UpdateApplication (envGen uuidC) uuidA uuidB ⟨"renamed"⟩ dbTenantApp =
          (some (.notFound (applicationNotFoundMsg uuidA uuidB)), dbTenantApp)) ∧
      (doesTenantExist uuidA dbTenantApp = true →
        doesApplicationExist uuidA uuidB dbTenantApp = true →
        (envGen uuidC).execErr = none → dbTenantApp.WF →
        (UpdateApplication (envGen uuidC) uuidA uuidB ⟨"renamed"⟩ dbTenantApp).1 = none ∧
        (UpdateApplication (envGen uuidC) uuidA uuidB ⟨"renamed"⟩ dbTenantApp).2.tenant =
          dbTenantApp.tenant ∧
        rowsFor (stringParam uuidA, stringParam uuidB)
          (UpdateApplication (envGen uuidC) uuidA uuidB ⟨"renamed"⟩ dbTenantApp).2.application =
          [Application.Name ⟨"renamed"⟩] ∧
        (∀ k : GocqlUUID × GocqlUUID, k ≠ (stringParam uuidA, stringParam uuidB) →
          rowsFor k
            (UpdateApplication (envGen uuidC) uuidA uuidB ⟨"renamed"⟩ dbTenantApp).2.application =
            rowsFor k dbTenantApp.application))) :=
  ⟨rfl, updateApplication_cases (envGen uuidC) uuidA uuidB ⟨"renamed"⟩ dbTenantApp rfl⟩

/-- C6: after a tenant with an existing application row has been deleted,
reading that application fails with the tenant not-found error; the failure is
produced by the tenant existence check alone, for the same result holds
whatever the application table contains. -/
theorem deleteTenant_then_readApplication_notFound (env1 env2 : Env)
    (T1 A1 : SystemUUID) (db : DB) (h2 : env2.sessionErr = none)
    (_happ : (stringParam T1, stringParam A1) ∈ db.application.map Prod.fst)
    (hdel : (DeleteTenant env1 T1 db).1 = none) :
    ReadApplication env2 T1 A1 (DeleteTenant env1 T1 db).2 =
      (⟨""⟩, some (.notFound (tenantNotFoundMsg T1))) ∧
    (∀ apps : List ((GocqlUUID × GocqlUUID) × String),
      ReadApplication env2 T1 A1 (DB.mk (DeleteTenant env1 T1 db).2.tenant apps) =
        (⟨""⟩, some (.notFound (tenantNotFoundMsg T1)))) := by
  cases hsess1 : env1.sessionErr with
  | some e =>
      rw [DeleteTenant, hsess1] at hdel
      cases hdel
  | none =>
      cases hten : doesTenantExist T1 db with
      | false =>
          simp only [DeleteTenant, hsess1, hten, Bool.not_false, if_true] at hdel
          cases hdel
      | true =>
          cases hexec : env1.execErr with
          | some e =>
              simp only [DeleteTenant, hsess1, hten, Bool.not_true, hexec] at hdel
              simp at hdel
          | none =>
              have hdb2 : (DeleteTenant env1 T1 db).2 =
                  DB.mk (deleteRows (stringParam T1) db.tenant) db.application := by
                simp only [DeleteTenant, hsess1, hten, Bool.not_true, hexec,
                  mapSystemUUIDToGocqlUUID_eq_stringParam]
                simp
              have hnoten : ∀ apps : List ((GocqlUUID × GocqlUUID) × String),
                  doesTenantExist T1 (DB.mk (deleteRows (stringParam T1) db.tenant) apps) =
                    false := by
                intro apps
                show scanHasRow
                  (rowsFor (stringParam T1) (deleteRows (stringParam T1) db.tenant)) = false
                rw [rowsFor_delete_self]
                rfl
              refine ⟨?_, ?_⟩
              · rw [hdb2]
                simp only [ReadApplication, h2, hnoten db.application, Bool.not_false, if_true]
              · intro apps
                rw [hdb2]
                simp only [ReadApplication, h2, hnoten apps, Bool.not_false, if_true]

/-- Witness for C6 at a concrete input: the stored application survives the
tenant deletion, yet reading it reports the missing tenant. -/
theorem deleteTenant_then_readApplication_notFound_witness :
    (envGen uuidC).sessionErr = none ∧
    (stringParam uuidA, stringParam uuidB) ∈ dbTenantApp.application.map Prod.fst ∧
    (DeleteTenant (envGen uuidC) uuidA dbTenantApp).1 = none ∧
    (ReadApplication (envGen uuidC) uuidA uuidB (DeleteTenant (envGen uuidC) uuidA dbTenantApp).2 =
        (⟨""⟩, some (.notFound (tenantNotFoundMsg uuidA))) ∧
      (∀ apps : List ((GocqlUUID × GocqlUUID) × String),
        ReadApplication (envGen uuidC) uuidA uuidB
            (DB.mk (DeleteTenant (envGen uuidC) uuidA dbTenantApp).2.tenant apps) =
          (⟨""⟩, some (.notFound (tenantNotFoundMsg uuidA))))) :=
  ⟨rfl, by decide, by decide,
   deleteTenant_then_readApplication_notFound (envGen uuidC) (envGen uuidC) uuidA uuidB
     dbTenantApp rfl (by decide) (by decide)⟩

/-- C8: ReadAllApplications fails with the tenant not-found error when the
tenant row is absent; otherwise it succeeds and the returned mapping has one
entry per application row stored under that tenant, keyed by the converted
application identifier, and no other entries. -/
theorem readAllApplications_cases (env : Env) (tenantID : SystemUUID) (db : DB)
    (hsess : env.sessionErr = none) (hWF : db.WF) :
    (doesTenantExist tenantID db = false →
      ReadAllApplications env tenantID db =
        ([], some (.notFound (tenantNotFoundMsg tenantID)))) ∧
    (doesTenantExist tenantID db = true →
      (ReadAllApplications env tenantID db).2 = none ∧
      ∀ (k : SystemUUID) (a : Application),
        (k, a) ∈ (ReadAllApplications env tenantID db).1 ↔
          ((stringParam tenantID, mapSystemUUIDToGocqlUUID k), a.Name) ∈ db.application) := by
  refine ⟨?_, ?_⟩
  · intro hten
    simp only [ReadAllApplications, hsess, hten, Bool.not_false, if_true]
  · intro hten
    have hres : ReadAllApplications env tenantID db = (readAllApplications tenantID db, none) := by
      simp only [ReadAllApplications, hsess, hten, Bool.not_true]
      simp
    rw [hres]
    refine ⟨rfl, ?_⟩
    intro k a
    show (k, a) ∈ readAllApplications tenantID db ↔ _
    rw [readAllApplications_eq_map tenantID db hWF.2]
    constructor
    · intro hmem
      rcases List.mem_map.mp hmem with ⟨r, hr, heq⟩
      obtain ⟨⟨rt, ra⟩, rn⟩ := r
      rcases (mem_applicationRowsOf_iff (stringParam tenantID) db.application).mp hr with
        ⟨hrow, hkey⟩
      rw [Prod.mk.injEq] at heq
      obtain ⟨hk, ha⟩ := heq
      have hra : ra = mapSystemUUIDToGocqlUUID k := by
        rw [← hk, map_roundtrip_gocql]
      have hname : a.Name = rn := by
        rw [← ha]
      have hrt : rt = stringParam tenantID := hkey
      rw [hname, ← hra, ← hrt]
      exact hrow
    · intro hrow
      refine List.mem_map.mpr
        ⟨((stringParam tenantID, mapSystemUUIDToGocqlUUID k), a.Name), ?_, ?_⟩
      · exact (mem_applicationRowsOf_iff _ _).mpr ⟨hrow, rfl⟩
      · exact Prod.ext (map_roundtrip_system k) rfl

/-- Witness for C8 at a concrete input. -/
theorem readAllApplications_cases_witness :
    (envGen uuidC).sessionErr = none ∧
    dbTenantApp.WF ∧
    ((doesTenantExist uuidA dbTenantApp = false →
        ReadAllApplications (envGen uuidC) uuidA dbTenantApp =
          ([], some (.notFound (tenantNotFoundMsg uuidA)))) ∧
      (doesTenantExist uuidA dbTenantApp = true →
        (ReadAllApplications (envGen uuidC) uuidA dbTenantApp).2 = none ∧
        ∀ (k : SystemUUID) (a : Application),
          (k, a) ∈ (ReadAllApplications (envGen uuidC) uuidA dbTenantApp).1 ↔
            ((stringParam uuidA, mapSystemUUIDToGocqlUUID k), a.Name) ∈
              dbTenantApp.application)) :=
  ⟨rfl, by constructor <;> decide,
   readAllApplications_cases (envGen uuidC) uuidA dbTenantApp rfl (by constructor <;> decide)⟩

/-- C2: whenever an operation fails with a not-found error, the stored tables
are unchanged (the failure precedes any mutating statement), and the error
message carries the textual form of the referenced tenant identifier: it is
the tenant not-found message, or the application not-found message, which also
carries the referenced application identifier. -/
theorem notFound_leaves_db_and_names_ids (op : Op) (env : Env) (db : DB) (msg : String)
    (h : ((op.run env db).1).errOf = some (.notFound msg)) :
    (op.run env db).2 = db ∧
    ∃ tid, op.tenantArg = some tid ∧ carriesUUID msg tid ∧
      (msg = tenantNotFoundMsg tid ∨
        ∃ aid, op.applicationArg = some aid ∧
          msg = applicationNotFoundMsg tid aid ∧ carriesUUID msg aid) := by
  cases op with
  | createTenant t =>
      exfalso
      cases hgen : env.genErr <;> cases hsess : env.sessionErr <;> cases hexec : env.execErr <;>
        simp [Op.run, CreateTenant, addOrUpdateTenant, OpResult.errOf,
          hgen, hsess, hexec] at h
  | updateTenant tid t =>
      cases hsess : env.sessionErr with
      | some e => simp [Op.run, UpdateTenant, OpResult.errOf, hsess] at h
      | none =>
          cases hten : doesTenantExist tid db with
          | false =>
              have hrun : (Op.updateTenant tid t).run env db =
                  (.unitResult (some (.notFound (tenantNotFoundMsg tid))), db) := by
                simp [Op.run, UpdateTenant, hsess, hten]
              rw [hrun] at h
              simp only [OpResult.errOf, Option.some.injEq, GoError.notFound.injEq] at h
              subst h
              exact ⟨by rw [hrun], tid, rfl, carriesUUID_of_append _ tid,
                Or.inl rfl⟩
          | true =>
              exfalso
              cases hexec : env.execErr <;>
                simp [Op.run, UpdateTenant, addOrUpdateTenant, OpResult.errOf,
                  hsess, hten, hexec] at h
  | readTenant tid =>
      cases hsess : env.sessionErr with
      | some e => simp [Op.run, ReadTenant, OpResult.errOf, hsess] at h
      | none =>
          cases hrows : rowsFor (stringParam tid) db.tenant with
          | nil =>
              have hrun : (Op.readTenant tid).run env db =
                  (.tenantResult ⟨""⟩ (some (.notFound (tenantNotFoundMsg tid))), db) := by
                simp [Op.run, ReadTenant, readTenant, hsess, hrows]
              rw [hrun] at h
              simp only [OpResult.errOf, Option.some.injEq, GoError.notFound.injEq] at h
              subst h
              exact ⟨rfl, tid, rfl, carriesUUID_of_append _ tid, Or.inl rfl⟩
          | cons hd tl =>
              exfalso
              simp [Op.run, ReadTenant, readTenant, OpResult.errOf, hsess, hrows] at h
  | deleteTenant tid =>
      cases hsess : env.sessionErr with
      | some e => simp [Op.run, DeleteTenant, OpResult.errOf, hsess] at h
      | none =>
          cases hten : doesTenantExist tid db with
          | false =>
              have hrun : (Op.deleteTenant tid).run env db =
                  (.unitResult (some (.notFound (tenantNotFoundMsg tid))), db) := by
                simp [Op.run, DeleteTenant, hsess, hten]
              rw [hrun] at h
              simp only [OpResult.errOf, Option.some.injEq, GoError.notFound.injEq] at h
              subst h
              exact ⟨by rw [hrun], tid, rfl, carriesUUID_of_append _ tid, Or.inl rfl⟩
          | true =>
              exfalso
              cases hexec : env.execErr <;>
                simp [Op.run, DeleteTenant, OpResult.errOf, hsess, hten, hexec] at h
  | createApplication tid a =>
      cases hsess : env.sessionErr with
      | some e => simp [Op.run, CreateApplication, OpResult.errOf, hsess] at h
      | none =>
          cases hten : doesTenantExist tid db with
          | false =>
              have hrun : (Op.createApplication tid a).run env db =
                  (.uuidResult EmptyUUID (some (.notFound (tenantNotFoundMsg tid))), db) := by
                simp [Op.run, CreateApplication, hsess, hten]
              rw [hrun] at h
              simp only [OpResult.errOf, Option.some.injEq, GoError.notFound.injEq] at h
              subst h
              exact ⟨by rw [hrun], tid, rfl, carriesUUID_of_append _ tid, Or.inl rfl⟩
          | true =>
              exfalso
              cases hgen : env.genErr <;> cases hexec : env.execErr <;>
                simp [Op.run, CreateApplication, addOrUpdateApplication, OpResult.errOf,
                  hsess, hten, hgen, hexec] at h
  | updateApplication tid aid a =>
      cases hsess : env.sessionErr with
      | some e => simp [Op.run, UpdateApplication, OpResult.errOf, hsess] at h
      | none =>
          cases hten : doesTenantExist tid db with
          | false =>
              have hrun : (Op.updateApplication tid aid a).run env db =
                  (.unitResult (some (.notFound (tenantNotFoundMsg tid))), db) := by
                simp [Op.run, UpdateApplication, hsess, hten]
              rw [hrun] at h
              simp only [OpResult.errOf, Option.some.injEq, GoError.notFound.injEq] at h
              subst h
              exact ⟨by rw [hrun], tid, rfl, carriesUUID_of_append _ tid, Or.inl rfl⟩
          | true =>
              cases happx : doesApplicationExist tid aid db with
              | false =>
                  have hrun : (Op.updateApplication tid aid a).run env db =
                      (.unitResult (some (.notFound (applicationNotFoundMsg tid aid))), db) := by
                    simp [Op.run, UpdateApplication, hsess, hten, happx]
                  rw [hrun] at h
                  simp only [OpResult.errOf, Option.some.injEq, GoError.notFound.injEq] at h
                  subst h
                  exact ⟨by rw [hrun], tid, rfl, carriesUUID_of_append_left _ _ tid aid,
                    Or.inr ⟨aid, rfl, rfl, carriesUUID_of_append_right _ _ tid aid⟩⟩
              | true =>
                  exfalso
                  cases hexec : env.execErr <;>
                    simp [Op.run, UpdateApplication, addOrUpdateApplication, OpResult.errOf,
                      hsess, hten, happx, hexec] at h
  | readApplication tid aid =>
      cases hsess : env.sessionErr with
      | some e => simp [Op.run, ReadApplication, OpResult.errOf, hsess] at h
      | none =>
          cases hten : doesTenantExist tid db with
          | false =>
              have hrun : (Op.readApplication tid aid).run env db =
                  (.applicationResult ⟨""⟩ (some (.notFound (tenantNotFoundMsg tid))), db) := by
                simp [Op.run, ReadApplication, hsess, hten]
              rw [hrun] at h
              simp only [OpResult.errOf, Option.some.injEq, GoError.notFound.injEq] at h
              subst h
              exact ⟨rfl, tid, rfl, carriesUUID_of_append _ tid, Or.inl rfl⟩
          | true =>
              cases hrows : rowsFor (stringParam tid, stringParam aid) db.application with
              | nil =>
                  have hrun : (Op.readApplication tid aid).run env db =
                      (.applicationResult ⟨""⟩
                        (some (.notFound (applicationNotFoundMsg tid aid))), db) := by
                    simp [Op.run, ReadApplication, readApplication, hsess, hten, hrows]
                  rw [hrun] at h
                  simp only [OpResult.errOf, Option.some.injEq, GoError.notFound.injEq] at h
                  subst h
                  exact ⟨rfl, tid, rfl, carriesUUID_of_append_left _ _ tid aid,
                    Or.inr ⟨aid, rfl, rfl, carriesUUID_of_append_right _ _ tid aid⟩⟩
              | cons hd tl =>
                  exfalso
                  simp [Op.run, ReadApplication, readApplication, OpResult.errOf,
                    hsess, hten, hrows] at h
  | readAllApplications tid =>
      cases hsess : env.sessionErr with
      | some e => simp [Op.run, ReadAllApplications, OpResult.errOf, hsess] at h
      | none =>
          cases hten : doesTenantExist tid db with
          | false =>
              have hrun : (Op.readAllApplications tid).run env db =
                  (.applicationsResult [] (some (.notFound (tenantNotFoundMsg tid))), db) := by
                simp [Op.run, ReadAllApplications, hsess, hten]
              rw [hrun] at h
              simp only [OpResult.errOf, Option.some.injEq, GoError.notFound.injEq] at h
              subst h
              exact ⟨rfl, tid, rfl, carriesUUID_of_append _ tid, Or.inl rfl⟩
          | true =>
              exfalso
              simp [Op.run, ReadAllApplications, OpResult.errOf, hsess, hten] at h
  | deleteApplication tid aid =>
      cases hsess : env.sessionErr with
      | some e => simp [Op.run, DeleteApplication, OpResult.errOf, hsess] at h
      | none =>
          cases hten : doesTenantExist tid db with
          | false =>
              have hrun : (Op.deleteApplication tid aid).run env db =
                  (.unitResult (some (.notFound (tenantNotFoundMsg tid))), db) := by
                simp [Op.run, DeleteApplication, hsess, hten]
              rw [hrun] at h
              simp only [OpResult.errOf, Option.some.injEq, GoError.notFound.injEq] at h
              subst h
              exact ⟨by rw [hrun], tid, rfl, carriesUUID_of_append _ tid, Or.inl rfl⟩
          | true =>
              cases happx : doesApplicationExist tid aid db with
              | false =>
                  have hrun : (Op.deleteApplication tid aid).run env db =
                      (.unitResult (some (.notFound (applicationNotFoundMsg tid aid))), db) := by
                    simp [Op.run, DeleteApplication, hsess, hten, happx]
                  rw [hrun] at h
                  simp only [OpResult.errOf, Option.some.injEq, GoError.notFound.injEq] at h
                  subst h
                  exact ⟨by rw [hrun], tid, rfl, carriesUUID_of_append_left _ _ tid aid,
                    Or.inr ⟨aid, rfl, rfl, carriesUUID_of_append_right _ _ tid aid⟩⟩
              | true =>
                  exfalso
                  cases hexec : env.execErr <;>
                    simp [Op.run, DeleteApplication, OpResult.errOf,
                      hsess, hten, happx, hexec] at h

/-- Witness for C2 at a concrete input. -/
theorem notFound_leaves_db_and_names_ids_witness :
    ((Op.updateTenant uuidA ⟨"k3"⟩).run (envGen uuidB) emptyDB).1.errOf =
      some (.notFound (tenantNotFoundMsg uuidA)) ∧
    (((Op.updateTenant uuidA ⟨"k3"⟩).run (envGen uuidB) emptyDB).2 = emptyDB ∧
      ∃ tid, (Op.updateTenant uuidA ⟨"k3"⟩).tenantArg = some tid ∧
        carriesUUID (tenantNotFoundMsg uuidA) tid ∧
        (tenantNotFoundMsg uuidA = tenantNotFoundMsg tid ∨
          ∃ aid, (Op.updateTenant uuidA ⟨"k3"⟩).applicationArg = some aid ∧
            tenantNotFoundMsg uuidA = applicationNotFoundMsg tid aid ∧
            carriesUUID (tenantNotFoundMsg uuidA) aid)) :=
  ⟨rfl,
   notFound_leaves_db_and_names_ids (Op.updateTenant uuidA ⟨"k3"⟩) (envGen uuidB) emptyDB
     (tenantNotFoundMsg uuidA) rfl⟩

theorem refIntegrity_upsert_tenant (k : GocqlUUID) (v : String) {db : DB}
    (hint : refIntegrity db) :
    refIntegrity (DB.mk (upsertRow k v db.tenant) db.application) := by
  intro r hr
  exact mem_keys_upsert_of_mem v (hint r hr)

theorem refIntegrity_upsert_application (k : GocqlUUID × GocqlUUID) (v : String) {db : DB}
    (hk : k.1 ∈ db.tenant.map Prod.fst) (hint : refIntegrity db) :
    refIntegrity (DB.mk db.tenant (upsertRow k v db.application)) := by
  intro r hr
  rcases eq_or_mem_of_mem_upsert hr with rfl | hmem
  · exact hk
  · exact hint r hmem

theorem refIntegrity_delete_application (k : GocqlUUID × GocqlUUID) {db : DB}
    (hint : refIntegrity db) :
    refIntegrity (DB.mk db.tenant (deleteRows k db.application)) := by
  intro r hr
  exact hint r (mem_of_mem_delete hr)

/-- C1 counterexample: from the empty database, create a tenant, create an
application under it, and delete the tenant.  The pre-delete state satisfies
referential integrity, DeleteTenant succeeds, yet the resulting reachable
state violates referential integrity: the application row survives with no
corresponding tenant row, so DeleteTenant does not preserve the invariant. -/
theorem deleteTenant_breaks_refIntegrity :
    refIntegrity
      ((Op.createApplication uuidA ⟨"billing"⟩).run (envGen uuidB)
        ((Op.createTenant ⟨"s3cr3t"⟩).run (envGen uuidA) emptyDB).2).2 ∧
    ((Op.deleteTenant uuidA).run (envGen uuidC)
      ((Op.createApplication uuidA ⟨"billing"⟩).run (envGen uuidB)
        ((Op.createTenant ⟨"s3cr3t"⟩).run (envGen uuidA) emptyDB).2).2).1.errOf = none ∧
    ¬ refIntegrity
      ((Op.deleteTenant uuidA).run (envGen uuidC)
        ((Op.createApplication uuidA ⟨"billing"⟩).run (envGen uuidB)
          ((Op.createTenant ⟨"s3cr3t"⟩).run (envGen uuidA) emptyDB).2).2).2 := by
  refine ⟨by decide, rfl, by decide⟩

/-- C1 amended: the application-layer pre-checks make every operation other
than DeleteTenant preserve referential integrity (application rows are only
inserted after the tenant pre-check passes); DeleteTenant removes only the
tenant row and does not preserve the invariant, as the counterexample shows. -/
theorem refIntegrity_preserved_except_deleteTenant (op : Op) (env : Env) (db : DB)
    (hint : refIntegrity db) (hnotdel : op.isDeleteTenant = false) :
    refIntegrity (op.run env db).2 := by
  cases op with
  | deleteTenant tid => cases hnotdel
  | createTenant t =>
      cases hgen : env.genErr with
      | some e => simpa [Op.run, CreateTenant, hgen] using hint
      | none =>
          cases hsess : env.sessionErr with
          | some e => simpa [Op.run, CreateTenant, hgen, hsess] using hint
          | none =>
              cases hexec : env.execErr with
              | some e =>
                  simpa [Op.run, CreateTenant, addOrUpdateTenant, hgen, hsess, hexec] using hint
              | none =>
                  have hrun : ((Op.createTenant t).run env db).2 =
                      DB.mk (upsertRow (mapSystemUUIDToGocqlUUID env.genUUID)
                        t.SecretKey db.tenant) db.application := by
                    simp [Op.run, CreateTenant, addOrUpdateTenant, hgen, hsess, hexec]
                  rw [hrun]
                  exact refIntegrity_upsert_tenant _ _ hint
  | updateTenant tid t =>
      cases hsess : env.sessionErr with
      | some e => simpa [Op.run, UpdateTenant, hsess] using hint
      | none =>
          cases hten : doesTenantExist tid db with
          | false => simpa [Op.run, UpdateTenant, hsess, hten] using hint
          | true =>
              cases hexec : env.execErr with
              | some e =>
                  simpa [Op.run, UpdateTenant, addOrUpdateTenant, hsess, hten, hexec] using hint
              | none =>
                  have hrun : ((Op.updateTenant tid t).run env db).2 =
                      DB.mk (upsertRow (mapSystemUUIDToGocqlUUID tid)
                        t.SecretKey db.tenant) db.application := by
                    simp [Op.run, UpdateTenant, addOrUpdateTenant, hsess, hten, hexec]
                  rw [hrun]
                  exact refIntegrity_upsert_tenant _ _ hint
  | readTenant tid => exact hint
  | createApplication tid a =>
      cases hsess : env.sessionErr with
      | some e => simpa [Op.run, CreateApplication, hsess] using hint
      | none =>
          cases hten : doesTenantExist tid db with
          | false => simpa [Op.run, CreateApplication, hsess, hten] using hint
          | true =>
              cases hgen : env.genErr with
              | some e => simpa [Op.run, CreateApplication, hsess, hten, hgen] using hint
              | none =>
                  cases hexec : env.execErr with
                  | some e =>
                      simpa [Op.run, CreateApplication, addOrUpdateApplication,
                        hsess, hten, hgen, hexec] using hint
                  | none =>
                      have hrun : ((Op.createApplication tid a).run env db).2 =
                          DB.mk db.tenant
                            (upsertRow (mapSystemUUIDToGocqlUUID tid,
                              mapSystemUUIDToGocqlUUID env.genUUID) a.Name db.application) := by
                        simp [Op.run, CreateApplication, addOrUpdateApplication,
                          hsess, hten, hgen, hexec]
                      rw [hrun]
                      refine refIntegrity_upsert_application _ _ ?_ hint
                      rw [mapSystemUUIDToGocqlUUID_eq_stringParam]
                      exact (doesTenantExist_eq_true_iff tid db).mp hten
  | updateApplication tid aid a =>
      cases hsess : env.sessionErr with
      | some e => simpa [Op.run, UpdateApplication, hsess] using hint
      | none =>
          cases hten : doesTenantExist tid db with
          | false => simpa [Op.run, UpdateApplication, hsess, hten] using hint
          | true =>
              cases happx : doesApplicationExist tid aid db with
              | false => simpa [Op.run, UpdateApplication, hsess, hten, happx] using hint
              | true =>
                  cases hexec : env.execErr with
                  | some e =>
                      simpa [Op.run, UpdateApplication, addOrUpdateApplication,
                        hsess, hten, happx, hexec] using hint
                  | none =>
                      have hrun : ((Op.updateApplication tid aid a).run env db).2 =
                          DB.mk db.tenant
                            (upsertRow (mapSystemUUIDToGocqlUUID tid,
                              mapSystemUUIDToGocqlUUID aid) a.Name db.application) := by
                        simp [Op.run, UpdateApplication, addOrUpdateApplication,
                          hsess, hten, happx, hexec]
                      rw [hrun]
                      refine refIntegrity_upsert_application _ _ ?_ hint
                      rw [mapSystemUUIDToGocqlUUID_eq_stringParam]
                      exact (doesTenantExist_eq_true_iff tid db).mp hten
  | readApplication tid aid => exact hint
  | readAllApplications tid => exact hint
  | deleteApplication tid aid =>
      cases hsess : env.sessionErr with
      | some e => simpa [Op.run, DeleteApplication, hsess] using hint
      | none =>
          cases hten : doesTenantExist tid db with
          | false => simpa [Op.run, DeleteApplication, hsess, hten] using hint
          | true =>
              cases happx : doesApplicationExist tid aid db with
              | false => simpa [Op.run, DeleteApplication, hsess, hten, happx] using hint
              | true =>
                  cases hexec : env.execErr with
                  | some e =>
                      simpa [Op.run, DeleteApplication, hsess, hten, happx, hexec] using hint
                  | none =>
                      have hrun : ((Op.deleteApplication tid aid).run env db).2 =
                          DB.mk db.tenant
                            (deleteRows (mapSystemUUIDToGocqlUUID tid,
                              mapSystemUUIDToGocqlUUID aid) db.application) := by
                        simp [Op.run, DeleteApplication, hsess, hten, happx, hexec]
                      rw [hrun]
                      exact refIntegrity_delete_application _ hint

/-- Witness for the amended C1 at a concrete input. -/
theorem refIntegrity_preserved_except_deleteTenant_witness :
    refIntegrity dbTenantApp ∧
    (Op.createApplication uuidA ⟨"crm"⟩).isDeleteTenant = false ∧
    refIntegrity ((Op.createApplication uuidA ⟨"crm"⟩).run (envGen uuidC) dbTenantApp).2 :=
  ⟨by decide, rfl,
   refIntegrity_preserved_except_deleteTenant (Op.createApplication uuidA ⟨"crm"⟩)
     (envGen uuidC) dbTenantApp (by decide) rfl⟩

end TenantService

